import Mathlib

/-!
# Verification of the jsonrpc library (Deno client/server)

A shallow embedding of the protocol engine of the `jsonrpc` repository:

* `src/utils.ts`   — `makeArray`, `asyncForEach`, `makeEncryptor`
* `src/server.ts`  — `createJsonrpcServer`: `handleRequest`, `send`, `parseRequest`
* `src/client.ts`  — `connect`: `tryToConnect`, `sendMessage`, `call`, `notify`,
  `listen`, `close`, `parseResponse`

JavaScript dynamic values that flow through the protocol are modelled by the
inductive type `JVal` (JSON values).  An absent object field is `Option.none`.
Strings handled character-by-character (the handshake encryptor) are modelled
as lists of UTF-16 code units (`List Nat`), matching `charCodeAt` /
`String.fromCharCode`.  Promise rejection / thrown handler errors are modelled
with `Except`.
-/

deriving instance DecidableEq for Except

namespace Jsonrpc

/-- A JSON value as produced by `JSON.parse`.  Object fields are an association
list (JSON text cannot duplicate keys after parsing; lookup takes the first
binding). -/
inductive JVal where
  | jnull : JVal
  | jbool : Bool → JVal
  | jnum : Int → JVal
  | jstr : String → JVal
  | jarr : List JVal → JVal
  | jobj : List (String × JVal) → JVal

mutual

/-- Structural equality test on JSON values (needed because automatic deriving
does not handle the nested `List` occurrences). -/
def JVal.beq : JVal → JVal → Bool
  | .jnull, .jnull => true
  | .jbool a, .jbool b => a == b
  | .jnum a, .jnum b => a == b
  | .jstr a, .jstr b => a == b
  | .jarr a, .jarr b => JVal.beqList a b
  | .jobj a, .jobj b => JVal.beqFields a b
  | _, _ => false

/-- Elementwise equality test for arrays of JSON values. -/
def JVal.beqList : List JVal → List JVal → Bool
  | [], [] => true
  | a :: as, b :: bs => JVal.beq a b && JVal.beqList as bs
  | _, _ => false

/-- Elementwise equality test for object field lists. -/
def JVal.beqFields : List (String × JVal) → List (String × JVal) → Bool
  | [], [] => true
  | (k1, v1) :: as, (k2, v2) :: bs => k1 == k2 && JVal.beq v1 v2 && JVal.beqFields as bs
  | _, _ => false

end

mutual

theorem JVal.beq_iff : ∀ a b : JVal, JVal.beq a b = true ↔ a = b
  | .jnull, .jnull => by simp [JVal.beq]
  | .jbool a, .jbool b => by simp [JVal.beq]
  | .jnum a, .jnum b => by simp [JVal.beq]
  | .jstr a, .jstr b => by simp [JVal.beq]
  | .jarr a, .jarr b => by
      simpa [JVal.beq] using JVal.beqList_iff a b
  | .jobj a, .jobj b => by
      simpa [JVal.beq] using JVal.beqFields_iff a b
  | .jnull, .jbool _ | .jnull, .jnum _ | .jnull, .jstr _ | .jnull, .jarr _ | .jnull, .jobj _
  | .jbool _, .jnull | .jbool _, .jnum _ | .jbool _, .jstr _ | .jbool _, .jarr _ | .jbool _, .jobj _
  | .jnum _, .jnull | .jnum _, .jbool _ | .jnum _, .jstr _ | .jnum _, .jarr _ | .jnum _, .jobj _
  | .jstr _, .jnull | .jstr _, .jbool _ | .jstr _, .jnum _ | .jstr _, .jarr _ | .jstr _, .jobj _
  | .jarr _, .jnull | .jarr _, .jbool _ | .jarr _, .jnum _ | .jarr _, .jstr _ | .jarr _, .jobj _
  | .jobj _, .jnull | .jobj _, .jbool _ | .jobj _, .jnum _ | .jobj _, .jstr _ | .jobj _, .jarr _ => by
      simp [JVal.beq]

theorem JVal.beqList_iff : ∀ a b : List JVal, JVal.beqList a b = true ↔ a = b
  | [], [] => by simp [JVal.beqList]
  | a :: as, b :: bs => by
      simp [JVal.beqList, JVal.beq_iff a b, JVal.beqList_iff as bs]
  | [], _ :: _ => by simp [JVal.beqList]
  | _ :: _, [] => by simp [JVal.beqList]

theorem JVal.beqFields_iff : ∀ a b : List (String × JVal), JVal.beqFields a b = true ↔ a = b
  | [], [] => by simp [JVal.beqFields]
  | (k1, v1) :: as, (k2, v2) :: bs => by
      simp [JVal.beqFields, JVal.beq_iff v1 v2, JVal.beqFields_iff as bs, and_assoc]
  | [], _ :: _ => by simp [JVal.beqFields]
  | _ :: _, [] => by simp [JVal.beqFields]

end

instance : DecidableEq JVal := fun a b =>
  decidable_of_iff (JVal.beq a b = true) (JVal.beq_iff a b)

/-- Field access `obj.key` on a parsed JSON object: the first binding, `none`
when the field is absent (JavaScript `undefined`). -/
def JVal.lookup (fields : List (String × JVal)) (key : String) : Option JVal :=
  match fields with
  | [] => none
  | (k, v) :: rest => if k = key then some v else JVal.lookup rest key

/-- JavaScript truthiness of a defined JSON value: `null`, `false`, `0` and
`""` are falsy; every other value (including `[]` and `{}`) is truthy. -/
def JVal.truthy : JVal → Bool
  | .jnull => false
  | .jbool b => b
  | .jnum n => n ≠ 0
  | .jstr s => s ≠ ""
  | .jarr _ => true
  | .jobj _ => true

/-- `ErrorResponse` from `src/shared.ts`: `{code, message, data?}`. -/
structure ErrObj where
  code : Int
  message : String
  data : Option JVal := none
deriving DecidableEq

/-- `makeArray` from `src/utils.ts`: a bare value becomes a one-element array,
an array is kept as is.  The dynamic `T | T[]` argument is a sum. -/
def makeArray {α : Type} (val : α ⊕ List α) : List α :=
  match val with
  | .inl v => [v]
  | .inr l => l

/-! ## Server (`src/server.ts`) -/

/-- An outgoing message object as built by `handleRequest` / `send` in
`src/server.ts`.  Each field is `some _` exactly when the corresponding
property is set on the JavaScript object; `id := some .jnull` is the property
`id: null`, `id := none` is an absent property. -/
structure Message where
  id : Option JVal := none
  result : Option JVal := none
  error : Option ErrObj := none
  jsonrpc : Option String := none
deriving DecidableEq

/-- One call of `sock.send`: either a bare JSON object or a JSON array
(serialization itself is structure preserving and not modelled further). -/
inductive WireFrame where
  | single : Message → WireFrame
  | batch : List Message → WireFrame
deriving DecidableEq

/-- `message.jsonrpc = '2.0'`, the mutation `send` applies to every message. -/
def stampVersion (m : Message) : Message :=
  { m with jsonrpc := some "2.0" }

/-- `send` from `src/server.ts`: coerce the argument to an array with
`makeArray`, stamp `jsonrpc: '2.0'` on every element, and emit one socket send
— the bare stamped object when there is exactly one element (done inside the
`forEach`), otherwise the whole stamped array (done after it). -/
def send (message : Message ⊕ List Message) : List WireFrame :=
  let messages := makeArray message
  let stamped := messages.map stampVersion
  (if messages.length = 1 then stamped.map WireFrame.single else [])
    ++ (if messages.length ≠ 1 then [WireFrame.batch stamped] else [])

/-- A validated incoming request (`interface JsonRpcRequest` in
`src/server.ts`): `method` is a string, `id` and `params` are the raw field
values (`none` = property absent). -/
structure JsonRpcRequest where
  method : String
  id : Option JVal := none
  params : Option JVal := none
deriving DecidableEq

/-- One element of `parseRequest`'s result: a validated request or the
`'invalid'` marker. -/
inductive ParsedItem where
  | invalid : ParsedItem
  | req : JsonRpcRequest → ParsedItem
deriving DecidableEq

/-- The per-element validation in `parseRequest`'s loop: anything that is not
an object (in the JavaScript sense `typeof obj !== 'object'`), is `null`, lacks
`jsonrpc: '2.0'`, or lacks a string `method` is `'invalid'`; arrays are objects
whose `jsonrpc` property is `undefined`, hence also `'invalid'`. -/
def validateElement (v : JVal) : ParsedItem :=
  match v with
  | .jobj fields =>
      if JVal.lookup fields "jsonrpc" ≠ some (.jstr "2.0") then .invalid
      else match JVal.lookup fields "method" with
        | some (.jstr m) =>
            .req { method := m, id := JVal.lookup fields "id", params := JVal.lookup fields "params" }
        | _ => .invalid
  | _ => .invalid

/-- The raw text handed to `handleRequest`, abstracted at the `JSON.parse`
boundary: `none` stands for any string `JSON.parse` throws on, `some v` for a
string that decodes to the JSON value `v`. -/
abbrev RawInput : Type := Option JVal

/-- `parseRequest` from `src/server.ts`: a JSON decoding failure is
`'parse-error'` (`none` here); otherwise the decoded value is coerced to an
array, each element validated, and an empty array is replaced by the
one-element list `['invalid']`. -/
def parseRequest (json : RawInput) : Option (List ParsedItem) :=
  match json with
  | none => none
  | some v =>
      let arr := match v with
        | .jarr l => l
        | other => [other]
      let res := arr.map validateElement
      if res.length = 0 then some [.invalid] else some res

/-- The fault a throwing method handler propagates (a rejected promise);
JavaScript can throw any value, the payload is irrelevant to the protocol, so
a string tag suffices. -/
abbrev Fault : Type := String

/-- A registered method handler (`methods` map): given `request.params` and the
client id it either returns a result or signals failure (promise rejection). -/
abbrev MethodHandler : Type := Option JVal → String → Except Fault JVal

/-- A registered emitter handler (`emitters` map): given `request.params` and
the client id it produces the values passed to `emit`, in call order (a
synchronously emitting handler; asynchronous schedules are outside the
embedding).  A synchronously thrown error propagates like a method error. -/
abbrev EmitterHandler : Type := Option JVal → String → Except Fault (List JVal)

/-- The state of `createJsonrpcServer` that `handleRequest` reads: the
`methods` and `emitters` registries and the `socks` connection table (only
presence of the socket matters for the modelled observations). -/
structure ServerEnv where
  methods : String → Option MethodHandler
  emitters : String → Option EmitterHandler
  socks : String → Bool

/-- `request.method.endsWith(':')`: whether the method string's last character
is the emitter-convention colon. -/
def endsWithColon (s : String) : Bool :=
  s.data.getLast? = some ':'

/-- The accumulator of `handleRequest`'s loop: the `responses` array plus the
out-of-band socket sends fired so far (by `emit` inside the loop). -/
structure LoopAcc where
  responses : List Message
  sends : List WireFrame
deriving DecidableEq

/-- One iteration of the `asyncForEach` body in `handleRequest`: push an
`Invalid Request` error for `'invalid'` elements; for a method (no trailing
colon) look up the handler, push `Method not found` when missing and an id was
given, run it otherwise — an `await`ed handler failure rejects the whole loop —
and push `{id, result}` when an id was given; for an emitter (trailing colon)
look up the handler, push `Emitter not found` when missing and an id was given,
otherwise run it, each `emit(data)` sending `{result: data, id: request.id}`
immediately. -/
def handleItem (env : ServerEnv) (client : String) (acc : LoopAcc) :
    ParsedItem → Except Fault LoopAcc
  | .invalid =>
      .ok { acc with
        responses := acc.responses ++
          [{ id := some .jnull, error := some { code := -32600, message := "Invalid Request" } }] }
  | .req request =>
      if ¬ endsWithColon request.method then
        match env.methods request.method with
        | none =>
            if request.id ≠ none then
              .ok { acc with
                responses := acc.responses ++
                  [{ error := some { code := -32601, message := "Method not found" },
                     id := request.id }] }
            else .ok acc
        | some handler =>
            match handler request.params client with
            | .error f => .error f
            | .ok result =>
                if request.id ≠ none then
                  .ok { acc with
                    responses := acc.responses ++ [{ id := request.id, result := some result }] }
                else .ok acc
      else
        match env.emitters request.method with
        | none =>
            if request.id ≠ none then
              .ok { acc with
                responses := acc.responses ++
                  [{ error := some { code := -32601, message := "Emitter not found" },
                     id := request.id }] }
            else .ok acc
        | some handler =>
            match handler request.params client with
            | .error f => .error f
            | .ok emitted =>
                .ok { acc with
                  sends := acc.sends ++
                    emitted.flatMap fun data =>
                      send (.inl { result := some data, id := request.id }) }

/-- The `asyncForEach` loop of `handleRequest` from a given accumulator: items
are processed in order and the first rejection aborts the remainder (each
callback is `await`ed, `asyncForEach` awaits sequentially, and `handleRequest`
awaits `asyncForEach`). -/
def handleItems (env : ServerEnv) (client : String) (acc : LoopAcc) :
    List ParsedItem → Except Fault LoopAcc
  | [] => .ok acc
  | item :: rest =>
      match handleItem env client acc item with
      | .error f => .error f
      | .ok acc' => handleItems env client acc' rest

/-- `handleRequest` from `src/server.ts`.  Result: the ordered socket sends it
performs, or the fault it rejects with.  Unknown client: warn and send nothing.
Parse error: send the single untargeted `-32700` response and return.
Otherwise run the loop and finally send the accumulated `responses` array. -/
def handleRequest (env : ServerEnv) (client : String) (raw : RawInput) :
    Except Fault (List WireFrame) :=
  if ¬ env.socks client then .ok []
  else
    match parseRequest raw with
    | none =>
        .ok (send (.inl
          { id := some .jnull, error := some { code := -32700, message := "Parse error" } }))
    | some requests =>
        match handleItems env client { responses := [], sends := [] } requests with
        | .error f => .error f
        | .ok acc => .ok (acc.sends ++ send (.inr acc.responses))

/-! ## Client (`src/client.ts`) -/

/-- `obj.hasOwnProperty(key)` on a parsed JSON object. -/
def hasProp (fields : List (String × JVal)) (key : String) : Bool :=
  (JVal.lookup fields key).isSome

/-- JavaScript truthiness of a possibly-`undefined` value. -/
def truthyOpt (v : Option JVal) : Bool :=
  match v with
  | none => false
  | some v => v.truthy

/-- `interface Response` from `src/client.ts` as materialized by
`parseResponse`: `{id: obj.id, result: obj.result, error: obj.error}`.  The
`error` field is the raw value of the `error` property (the client never
validates its shape). -/
structure ClientResponse where
  id : JVal
  result : Option JVal := none
  error : Option JVal := none
deriving DecidableEq

/-- One element of `parseResponse`'s `forEach`:  `none` models the
`TypeError` thrown by `null.hasOwnProperty` (JSON `null` elements), which the
surrounding `try` turns into a `null` overall result; `some none` is the
"warn and skip" path; `some (some r)` is a pushed Response.  An element is
pushed exactly when it has an `id` property and either a `result` property or
a truthy `error`. -/
def responseElement (v : JVal) : Option (Option ClientResponse) :=
  match v with
  | .jnull => none
  | .jobj fields =>
      if hasProp fields "id" && (hasProp fields "result" || truthyOpt (JVal.lookup fields "error")) then
        some (some { id := (JVal.lookup fields "id").getD .jnull,
                     result := JVal.lookup fields "result",
                     error := JVal.lookup fields "error" })
      else some none
  | _ => some none

/-- The `forEach` of `parseResponse`: elements processed in order, a thrown
`TypeError` aborting everything (caught as an overall `null`). -/
def responseElements : List JVal → Option (List ClientResponse)
  | [] => some []
  | v :: rest =>
      match responseElement v with
      | none => none
      | some none => responseElements rest
      | some (some r) => (responseElements rest).map (r :: ·)

/-- `parseResponse` from `src/client.ts`: non-string or undecodable input is
`null`; otherwise the decoded value is coerced to an array with `makeArray`
and filtered elementwise. -/
def parseResponse (json : RawInput) : Option (List ClientResponse) :=
  match json with
  | none => none
  | some v =>
      let obj := match v with
        | .jarr l => l
        | other => [other]
      responseElements obj

/-- What a `listeners`-table callback closure does when invoked.  `callCb` is
the closure `call` registers (deletes itself, then rejects on a truthy
`error`, else resolves when `data` is defined).  `listenCb hasListener
hasErrorHandler` is the closure `listen` registers for the given
`ListenOptions` (never deletes itself; feeds `errorHandler` on a truthy
`error` and, independently, `listener` on a truthy `data`). -/
inductive PendingCb where
  | callCb : PendingCb
  | listenCb : Bool → Bool → PendingCb
deriving DecidableEq

/-- The externally visible callback invocations of the client. -/
inductive CEvent where
  | resolved : JVal → CEvent
  | rejected : JVal → CEvent
  | listened : JVal → CEvent
  | errorHandled : JVal → CEvent
  | generalError : JVal → CEvent
deriving DecidableEq

/-- `Map.prototype.get`. -/
def mapGet (table : List (String × PendingCb)) (k : String) : Option PendingCb :=
  match table with
  | [] => none
  | (k', cb) :: rest => if k' = k then some cb else mapGet rest k

/-- `Map.prototype.set`: replaces an existing binding in place, otherwise
appends. -/
def mapSet (table : List (String × PendingCb)) (k : String) (cb : PendingCb) :
    List (String × PendingCb) :=
  match table with
  | [] => [(k, cb)]
  | (k', cb') :: rest => if k' = k then (k, cb) :: rest else (k', cb') :: mapSet rest k cb

/-- `Map.prototype.delete`. -/
def mapDelete (table : List (String × PendingCb)) (k : String) :
    List (String × PendingCb) :=
  match table with
  | [] => []
  | (k', cb') :: rest => if k' = k then rest else (k', cb') :: mapDelete rest k

/-- Invoke a table callback with `(error, data)` as `ws.onmessage` does.
Returns the events it fires and whether it removes itself from the table. -/
def runCb (cb : PendingCb) (error : Option JVal) (data : Option JVal) :
    List CEvent × Bool :=
  match cb with
  | .callCb =>
      (if truthyOpt error then [.rejected (error.getD .jnull)]
       else if data.isSome then [.resolved (data.getD .jnull)]
       else [], true)
  | .listenCb hasListener hasErrorHandler =>
      ((if hasErrorHandler && truthyOpt error then [.errorHandled (error.getD .jnull)] else [])
        ++ (if hasListener && truthyOpt data then [.listened (data.getD .jnull)] else []),
       false)

/-- The client state `ws.onmessage` reads and writes: the `listeners` table and
the log of callback invocations fired so far. -/
structure ClientState where
  table : List (String × PendingCb)
  events : List CEvent
deriving DecidableEq

/-- One iteration of the `forEach` in `ws.onmessage`: an `id: null` Response
with a truthy `error` goes to `onGeneralError` when configured and is thrown
otherwise (`Except.error`, aborting the remaining iterations); any other id is
looked up in `listeners` (a non-string id never matches a generated key),
and a found callback is invoked with `(res.error, res.result ?? null)`. -/
def dispatchOne (hasGeneralError : Bool) (st : ClientState) (res : ClientResponse) :
    Except JVal ClientState :=
  if res.id = .jnull then
    if truthyOpt res.error then
      if hasGeneralError then
        .ok { st with events := st.events ++ [.generalError (res.error.getD .jnull)] }
      else .error (res.error.getD .jnull)
    else .ok st
  else
    match res.id with
    | .jstr s =>
        match mapGet st.table s with
        | none => .ok st
        | some cb =>
            let data : Option JVal := some (res.result.getD .jnull)
            let (evs, del) := runCb cb res.error data
            .ok { table := if del then mapDelete st.table s else st.table,
                  events := st.events ++ evs }
    | _ => .ok st

/-- The whole `forEach` over a parsed Response batch, in order. -/
def dispatchList (hasGeneralError : Bool) (st : ClientState) :
    List ClientResponse → Except JVal ClientState
  | [] => .ok st
  | res :: rest =>
      match dispatchOne hasGeneralError st res with
      | .error e => .error e
      | .ok st' => dispatchList hasGeneralError st' rest

/-- The entry `call` adds to `listeners` under its fresh id. -/
def callRegister (st : ClientState) (id : String) : ClientState :=
  { st with table := mapSet st.table id .callCb }

/-- The entry `listen` adds to `listeners` under its fresh id, for
`ListenOptions` carrying the given callbacks. -/
def listenRegister (st : ClientState) (id : String)
    (hasListener hasErrorHandler : Bool) : ClientState :=
  { st with table := mapSet st.table id (.listenCb hasListener hasErrorHandler) }

/-- A message object built by `sendMessage`:
`{jsonrpc: '2.0', method, params}` plus `id` when a truthy id was given. -/
structure OutMessage where
  method : String
  params : Option JVal
  id : Option String := none
deriving DecidableEq

/-- `sendMessage` from `src/client.ts`, acting on the `outgoing` buffer
(`none` is the `null` sentinel `close()` installs).  On a closed buffer it
throws `Cannot send message because the socket has been manually closed`
without touching anything; otherwise it pushes the serialized message (the
notifier then flushes it to the transport when the socket is open, which the
embedding leaves to the transport). -/
def sendMessage (outgoing : Option (List OutMessage)) (method : String)
    (params : Option JVal) (id : Option String) :
    Except String (Option (List OutMessage)) :=
  let message : OutMessage :=
    { method := method, params := params,
      id := match id with
        | some s => if s ≠ "" then some s else none
        | none => none }
  match outgoing with
  | none => .error "Cannot send message because the socket has been manually closed"
  | some msgs => .ok (some (msgs ++ [message]))

/-- The buffer operation of `call`: `sendMessage(method, params, id)` with the
freshly generated id. -/
def callSend (outgoing : Option (List OutMessage)) (method : String)
    (params : Option JVal) (id : String) : Except String (Option (List OutMessage)) :=
  sendMessage outgoing method params (some id)

/-- `notify` from `src/client.ts`: `sendMessage(method, params)` with no id. -/
def notify (outgoing : Option (List OutMessage)) (method : String)
    (params : Option JVal) : Except String (Option (List OutMessage)) :=
  sendMessage outgoing method params none

/-- `close` from `src/client.ts`: `outgoing = null` (the notifier then closes
the transport socket if it is open). -/
def close (outgoing : Option (List OutMessage)) : Option (List OutMessage) :=
  none

/-- The retry-delay callback in `tryToConnect`'s `onerror`:
`if (outgoing) tryToConnect()` — whether another connection attempt starts. -/
def retryAfterDelay (outgoing : Option (List OutMessage)) : Bool :=
  outgoing.isSome

/-- The value of `options.retryCount || Infinity` (`none` = `Infinity`): an
absent retryCount and a retryCount of `0` are both falsy and fall through to
`Infinity`. -/
def effectiveRetryLimit (retryCountOption : Option Nat) : Option Nat :=
  match retryCountOption with
  | some n => if n = 0 then none else some n
  | none => none

/-- The guard `retryCount >= (options.retryCount || Infinity)` in `onerror`:
whether the failed-to-connect branch (code 101) is taken after `retryCount`
previous retries; a comparison against `Infinity` is always false. -/
def retriesExhausted (retryCountOption : Option Nat) (retryCount : Nat) : Bool :=
  match effectiveRetryLimit retryCountOption with
  | none => false
  | some n => decide (retryCount ≥ n)

/-! ## Handshake encoder (`makeEncryptor` in `src/utils.ts`)

Strings are modelled as their lists of UTF-16 code units (`charCodeAt` /
`String.fromCharCode` work code-unit-wise). -/

/-- `textToChars` applied to the key `'nothing-secret'` of `paramsEncoder`
(`src/shared.ts`): its character codes. -/
def keyChars : List Nat := "nothing-secret".data.map Char.toNat

/-- `applyKeyToChar`: fold the key's codes over `code` with XOR
(`reduce((a, b) => a ^ b, code)`). -/
def applyKeyToChar (code : Nat) : Nat :=
  keyChars.foldl Nat.xor code

/-- The character for one lowercase hex digit, as produced by
`Number.prototype.toString(16)`. -/
def hexDigitChar (d : Nat) : Nat :=
  if d < 10 then 48 + d else 87 + d

/-- `n.toString(16)` for a natural number: lowercase hex digits, no leading
zeros, `"0"` for zero. -/
def toHexChars (n : Nat) : List Nat :=
  if h : n < 16 then [hexDigitChar n]
  else toHexChars (n / 16) ++ [hexDigitChar (n % 16)]
decreasing_by exact Nat.div_lt_self (by omega) (by omega)

/-- `byteHex`: `('0' + n.toString(16)).substr(-2)` — the last two characters
of the zero-extended hex representation. -/
def byteHex (n : Nat) : List Nat :=
  let s := 48 :: toHexChars n
  s.drop (s.length - 2)

/-- The numeric value `parseInt` assigns to one hex digit character
(`0-9`, `a-f`, `A-F`). -/
def hexDigitVal (c : Nat) : Nat :=
  if 48 ≤ c ∧ c ≤ 57 then c - 48
  else if 97 ≤ c ∧ c ≤ 102 then c - 87
  else if 65 ≤ c ∧ c ≤ 70 then c - 55
  else 0

/-- `parseInt(hex, 16)` on a short digit group. -/
def parseHex (digits : List Nat) : Nat :=
  digits.foldl (fun acc c => acc * 16 + hexDigitVal c) 0

/-- The match groups of `encoded.match(/.{1,2}/g)`: successive pairs of
characters, a trailing odd character alone, `[]` for the empty string
(`match` returns `null`, coalesced by `|| []`). -/
def chunkPairs : List Nat → List (List Nat)
  | [] => []
  | [a] => [[a]]
  | a :: b :: rest => [a, b] :: chunkPairs rest

/-- `encrypt` from `makeEncryptor`: XOR every character code with the key,
render each as two hex characters, concatenate. -/
def encrypt (text : List Nat) : List Nat :=
  ((text.map applyKeyToChar).map byteHex).flatten

/-- `decrypt` from `makeEncryptor`: split into two-character groups, parse
each as hex, XOR with the key, reassemble the character codes. -/
def decrypt (encoded : List Nat) : List Nat :=
  ((chunkPairs encoded).map parseHex).map applyKeyToChar

/-! ## Concrete servers and requests used to evaluate the model -/

/-- The message objects carried by one wire frame. -/
def frameMessages : WireFrame → List Message
  | .single m => [m]
  | .batch ms => ms

/-- A server with no registered methods or emitters and every client
connected. -/
def sampleEnv : ServerEnv :=
  { methods := fun _ => none, emitters := fun _ => none, socks := fun _ => true }

/-- A server with a method `boom` whose handler always signals failure and a
method `ok` whose handler returns `7`. -/
def failEnv : ServerEnv :=
  { methods := fun m =>
      if m = "boom" then some (fun _ _ => .error "boom-fault")
      else if m = "ok" then some (fun _ _ => .ok (.jnum 7))
      else none,
    emitters := fun _ => none,
    socks := fun _ => true }

/-- The validated form of the request `{jsonrpc, method: 'boom', id: '1'}`. -/
def boomReq : JsonRpcRequest := { method := "boom", id := some (.jstr "1") }

/-- The validated form of the request `{jsonrpc, method: 'ok', id: '2'}`. -/
def okReq : JsonRpcRequest := { method := "ok", id := some (.jstr "2") }

/-- A two-request batch: `boom` (handler fails) with id `"1"`, then `ok`
(handler succeeds) with id `"2"`. -/
def failBatch : RawInput :=
  some (.jarr [
    .jobj [("jsonrpc", .jstr "2.0"), ("method", .jstr "boom"), ("id", .jstr "1")],
    .jobj [("jsonrpc", .jstr "2.0"), ("method", .jstr "ok"), ("id", .jstr "2")]])

/-! ## Helper lemmas -/

theorem foldl_xor_shift : ∀ (l : List Nat) (a : Nat), l.foldl Nat.xor a = a ^^^ l.foldl Nat.xor 0
  | [], a => by simp [List.foldl]
  | x :: l, a => by
      show List.foldl Nat.xor (Nat.xor a x) l = a ^^^ List.foldl Nat.xor (Nat.xor 0 x) l
      rw [foldl_xor_shift l (Nat.xor a x), foldl_xor_shift l (Nat.xor 0 x)]
      show (a ^^^ x) ^^^ _ = a ^^^ ((0 ^^^ x) ^^^ _)
      rw [Nat.zero_xor, Nat.xor_assoc]

/-- Folding the key over a code XORs it with the XOR of the key's codes. -/
theorem applyKeyToChar_eq (c : Nat) : applyKeyToChar c = c ^^^ 70 := by
  rw [applyKeyToChar, foldl_xor_shift]
  have h : keyChars.foldl Nat.xor 0 = 70 := by decide
  rw [h]

theorem applyKeyToChar_involution (c : Nat) : applyKeyToChar (applyKeyToChar c) = c := by
  simp [applyKeyToChar_eq, Nat.xor_assoc]

theorem applyKeyToChar_lt (c : Nat) (hc : c < 256) : applyKeyToChar c < 256 := by
  rw [applyKeyToChar_eq]
  exact Nat.xor_lt_two_pow (n := 8) hc (by norm_num)

theorem hexDigitVal_hexDigitChar (d : Nat) (hd : d < 16) :
    hexDigitVal (hexDigitChar d) = d := by
  unfold hexDigitVal hexDigitChar
  split_ifs <;> omega

theorem toHexChars_small (n : Nat) (h : n < 16) : toHexChars n = [hexDigitChar n] := by
  rw [toHexChars]
  simp [h]

theorem byteHex_eq (n : Nat) (h : n < 256) :
    byteHex n = [hexDigitChar (n / 16), hexDigitChar (n % 16)] := by
  by_cases h16 : n < 16
  · have hdiv : n / 16 = 0 := Nat.div_eq_of_lt h16
    have hmod : n % 16 = n := Nat.mod_eq_of_lt h16
    have h0 : hexDigitChar 0 = 48 := rfl
    simp [byteHex, toHexChars_small n h16, hdiv, hmod, h0]
  · have h1 : n / 16 < 16 := by omega
    rw [byteHex, toHexChars, dif_neg h16, toHexChars_small (n / 16) h1]
    simp

theorem parseHex_byteHex (n : Nat) (h : n < 256) : parseHex (byteHex n) = n := by
  rw [byteHex_eq n h]
  show (0 * 16 + hexDigitVal (hexDigitChar (n / 16))) * 16 + hexDigitVal (hexDigitChar (n % 16)) = n
  rw [hexDigitVal_hexDigitChar (n / 16) (by omega), hexDigitVal_hexDigitChar (n % 16) (by omega)]
  omega

theorem byteHex_length (n : Nat) : (byteHex n).length = 2 := by
  have h1 : 1 ≤ (toHexChars n).length := by
    rw [toHexChars]
    split <;> simp
  simp only [byteHex, List.length_drop, List.length_cons]
  omega

theorem chunkPairs_flatten : ∀ ls : List (List Nat), (∀ l ∈ ls, l.length = 2) →
    chunkPairs ls.flatten = ls
  | [], _ => rfl
  | l :: rest, h => by
      have hl : l.length = 2 := h l (List.mem_cons_self l rest)
      match l, hl with
      | [a, b], _ =>
        show chunkPairs (a :: b :: rest.flatten) = [a, b] :: rest
        rw [chunkPairs]
        rw [chunkPairs_flatten rest (fun x hx => h x (List.mem_cons_of_mem _ hx))]

/-- Byte-range inverse property of the encoder, from which the claimed
printable-range property follows. -/
theorem decrypt_encrypt (text : List Nat) (h : ∀ c ∈ text, c < 256) :
    decrypt (encrypt text) = text := by
  unfold decrypt encrypt
  rw [chunkPairs_flatten _ (by
    intro l hl
    simp only [List.mem_map] at hl
    obtain ⟨n, _, rfl⟩ := hl
    exact byteHex_length n)]
  simp only [List.map_map]
  refine (List.map_congr_left ?_).trans (List.map_id text)
  intro c hc
  simp only [Function.comp_apply, id_eq]
  rw [parseHex_byteHex _ (applyKeyToChar_lt c (h c hc)), applyKeyToChar_involution]

/-- `asyncForEach` processes a concatenation by processing the first part and,
when it did not reject, continuing with the second from the reached state. -/
theorem handleItems_append (env : ServerEnv) (client : String) (l1 l2 : List ParsedItem)
    (acc : LoopAcc) :
    handleItems env client acc (l1 ++ l2) =
      match handleItems env client acc l1 with
      | .error f => .error f
      | .ok acc' => handleItems env client acc' l2 := by
  induction l1 generalizing acc with
  | nil => simp [handleItems]
  | cons x xs ih =>
      simp only [List.cons_append, handleItems]
      cases handleItem env client acc x with
      | error f => rfl
      | ok acc' => exact ih acc'

/-- Dispatching one Response with a truthy `result` to a persistent `listen`
entry fires the listener and leaves the table unchanged. -/
theorem dispatchOne_listen (hasGE : Bool) (st : ClientState) (s : String) (hasEH : Bool)
    (v : JVal) (hentry : mapGet st.table s = some (.listenCb true hasEH))
    (hv : v.truthy = true) :
    dispatchOne hasGE st { id := .jstr s, result := some v } =
      .ok { table := st.table, events := st.events ++ [.listened v] } := by
  simp [dispatchOne, hentry, runCb, truthyOpt, hv]

/-- Dispatching any sequence of Responses with truthy `result`s to a
persistent `listen` entry fires the listener once per Response, in order. -/
theorem dispatchList_listen (hasGE : Bool) (s : String) (hasEH : Bool) :
    ∀ (vs : List JVal) (st : ClientState),
    mapGet st.table s = some (.listenCb true hasEH) →
    (∀ v ∈ vs, v.truthy = true) →
    dispatchList hasGE st (vs.map fun v => { id := .jstr s, result := some v }) =
      .ok { table := st.table, events := st.events ++ vs.map .listened }
  | [], st, _, _ => by simp [dispatchList]
  | v :: vs, st, hentry, hv => by
      have e1 := dispatchOne_listen hasGE st s hasEH v hentry (hv v (List.mem_cons_self _ _))
      have e2 := dispatchList_listen hasGE s hasEH vs
        { table := st.table, events := st.events ++ [.listened v] } hentry
        (fun x hx => hv x (List.mem_cons_of_mem _ hx))
      simp only [List.map_cons, dispatchList, e1, e2]
      simp

/-! ## Claim theorems -/

/-- C1 (counterexample): on the concrete batch `failBatch` — `boom` with id
`"1"` whose handler fails, then `ok` with id `"2"` — `handleRequest` rejects
with the handler's fault and produces no socket sends at all, instead of
appending an error Response for id `"1"`, processing the sibling, and sending
the accumulated batch as the claim states. -/
theorem method_handler_failure_uncontained_cex :
    handleRequest failEnv "client" failBatch = .error "boom-fault" ∧
    (handleRequest failEnv "client" failBatch).isOk = false := by decide

/-- C1 (amended): a failure signalled by a method handler while
`handleRequest` processes a batch is NOT contained to that request's Response
entry: `handleRequest` itself rejects with the handler's fault, no error
Response is appended for the failing request even when it carried an id,
the sibling requests after it are never processed, and the accumulated batch
of Responses is never sent (the rejection carries no sends). -/
theorem method_handler_failure_aborts_batch (env : ServerEnv) (client : String)
    (raw : RawInput) (pre rest : List ParsedItem) (acc : LoopAcc)
    (r : JsonRpcRequest) (h : MethodHandler) (f : Fault)
    (hsock : env.socks client = true)
    (hparse : parseRequest raw = some (pre ++ .req r :: rest))
    (hpre : handleItems env client { responses := [], sends := [] } pre = .ok acc)
    (hcolon : endsWithColon r.method = false)
    (hhandler : env.methods r.method = some h)
    (hfail : h r.params client = .error f) :
    handleRequest env client raw = .error f := by
  have hitem : handleItem env client acc (.req r) = .error f := by
    simp [handleItem, hcolon, hhandler, hfail]
  have hall : handleItems env client { responses := [], sends := [] }
      (pre ++ .req r :: rest) = .error f := by
    rw [handleItems_append, hpre]
    simp [handleItems, hitem]
  simp [handleRequest, hsock, hparse, hall]

/-- C1 (witness): the amended theorem applied to `failBatch` on `failEnv`. -/
theorem method_handler_failure_aborts_batch_witness :
    handleRequest failEnv "client" failBatch = .error "boom-fault" :=
  method_handler_failure_aborts_batch failEnv "client" failBatch [] [.req okReq]
    { responses := [], sends := [] } boomReq (fun _ _ => .error "boom-fault") "boom-fault"
    rfl (by decide) rfl (by decide) rfl rfl

/-- C2: a `listen` subscription's callback is persistent — dispatching three
Responses carrying truthy results `v1, v2, v3` to it invokes the listener
exactly three times, in that order, and leaves the entry in the table; by
contrast, the callback registered by `call` is removed from the table by the
first matching Response. -/
theorem listen_callback_persistent (hasGE : Bool) (st : ClientState) (s : String)
    (hasEH : Bool) (v1 v2 v3 : JVal)
    (hentry : mapGet st.table s = some (.listenCb true hasEH))
    (h1 : v1.truthy = true) (h2 : v2.truthy = true) (h3 : v3.truthy = true)
    (st' : ClientState) (s' : String) (w : JVal)
    (hcall : mapGet st'.table s' = some .callCb) :
    dispatchList hasGE st
        [{ id := .jstr s, result := some v1 },
         { id := .jstr s, result := some v2 },
         { id := .jstr s, result := some v3 }] =
      .ok { table := st.table,
            events := st.events ++ [.listened v1, .listened v2, .listened v3] }
  ∧ dispatchOne hasGE st' { id := .jstr s', result := some w } =
      .ok { table := mapDelete st'.table s', events := st'.events ++ [.resolved w] } := by
  constructor
  · exact dispatchList_listen hasGE s hasEH [v1, v2, v3] st hentry
      (by intro v hv; fin_cases hv <;> assumption)
  · simp [dispatchOne, hcall, runCb, truthyOpt]

/-- C2 (witness): a table with one subscription receives results `1, 2, 3` and
fires the listener three times in order, keeping the entry; a `call` entry is
removed by its first matching Response. -/
theorem listen_callback_persistent_witness :
    dispatchList false { table := [("sub", .listenCb true false)], events := [] }
        [{ id := .jstr "sub", result := some (.jnum 1) },
         { id := .jstr "sub", result := some (.jnum 2) },
         { id := .jstr "sub", result := some (.jnum 3) }] =
      .ok { table := [("sub", .listenCb true false)],
            events := [.listened (.jnum 1), .listened (.jnum 2), .listened (.jnum 3)] }
  ∧ dispatchOne false { table := [("c", .callCb)], events := [] }
        { id := .jstr "c", result := some (.jnum 9) } =
      .ok { table := [], events := [.resolved (.jnum 9)] } :=
  listen_callback_persistent false { table := [("sub", .listenCb true false)], events := [] }
    "sub" false (.jnum 1) (.jnum 2) (.jnum 3) (by decide) (by decide) (by decide) (by decide)
    { table := [("c", .callCb)], events := [] } "c" (.jnum 9) (by decide)

/-- C4: a pending `call` whose matching Response carries a defined `result`
and no error resolves with exactly that result — for every result value, so
in particular for the falsy values `""`, `0` and `false`; resolution is gated
on the `result` field being defined, never on its truthiness. -/
theorem call_resolves_on_defined_result (hasGE : Bool) (st : ClientState)
    (s : String) (v : JVal)
    (hentry : mapGet st.table s = some .callCb) :
    dispatchOne hasGE st { id := .jstr s, result := some v } =
      .ok { table := mapDelete st.table s, events := st.events ++ [.resolved v] } := by
  simp [dispatchOne, hentry, runCb, truthyOpt]

/-- C4 (witness): the falsy results `""`, `0` and `false` each resolve the
pending call with that value. -/
theorem call_resolves_on_defined_result_witness :
    (dispatchOne false { table := [("a", .callCb)], events := [] }
        { id := .jstr "a", result := some (.jstr "") } =
      .ok { table := [], events := [.resolved (.jstr "")] })
  ∧ (dispatchOne false { table := [("a", .callCb)], events := [] }
        { id := .jstr "a", result := some (.jnum 0) } =
      .ok { table := [], events := [.resolved (.jnum 0)] })
  ∧ (dispatchOne false { table := [("a", .callCb)], events := [] }
        { id := .jstr "a", result := some (.jbool false) } =
      .ok { table := [], events := [.resolved (.jbool false)] }) :=
  ⟨call_resolves_on_defined_result false { table := [("a", .callCb)], events := [] }
      "a" (.jstr "") (by decide),
   call_resolves_on_defined_result false { table := [("a", .callCb)], events := [] }
      "a" (.jnum 0) (by decide),
   call_resolves_on_defined_result false { table := [("a", .callCb)], events := [] }
      "a" (.jbool false) (by decide)⟩

/-- C5: after `close()` (for any prior buffer state), `call` and `notify` both
fail immediately with the explicit connection-closed error without enqueueing
anything, and the reconnect loop's delayed retry check finds the closed
sentinel and does not start another attempt. -/
theorem close_fails_calls_and_stops_retry (outgoing : Option (List OutMessage))
    (method : String) (params : Option JVal) (id : String) :
    callSend (close outgoing) method params id =
        .error "Cannot send message because the socket has been manually closed"
  ∧ notify (close outgoing) method params =
        .error "Cannot send message because the socket has been manually closed"
  ∧ retryAfterDelay (close outgoing) = false :=
  ⟨rfl, rfl, rfl⟩

/-- C6: `decrypt` is an exact left inverse of `encrypt` on every string of
printable characters (the character range of JSON-serialized values). -/
theorem encrypt_decrypt_exact_inverse (text : List Nat)
    (hprintable : ∀ c ∈ text, 32 ≤ c ∧ c ≤ 126) :
    decrypt (encrypt text) = text :=
  decrypt_encrypt text (fun c hc => by have := hprintable c hc; omega)

/-- C6 (witness): the inverse property at the concrete string `hi!`
(codes 104, 105, 33). -/
theorem encrypt_decrypt_exact_inverse_witness :
    decrypt (encrypt [104, 105, 33]) = [104, 105, 33] :=
  encrypt_decrypt_exact_inverse [104, 105, 33] (by decide)

/-- C7: `send` stamps `jsonrpc: "2.0"` onto every message of the frame it
emits; the wire form is a bare object exactly when one message is being sent,
and the order-preserving array of all stamped messages otherwise — including
the empty array for an empty accumulated batch. -/
theorem send_stamps_version_and_wire_shape (message : Message ⊕ List Message) :
    (∀ f ∈ send message, ∀ m ∈ frameMessages f, m.jsonrpc = some "2.0")
  ∧ ((makeArray message).length = 1 →
      send message = (makeArray message).map (fun m => .single (stampVersion m)))
  ∧ ((makeArray message).length ≠ 1 →
      send message = [.batch ((makeArray message).map stampVersion)]) := by
  refine ⟨?_, ?_, ?_⟩
  · intro f hf m hm
    by_cases h : (makeArray message).length = 1 <;> simp [send, h] at hf
    · obtain ⟨m', _, rfl⟩ := hf
      simp [frameMessages] at hm
      subst hm
      rfl
    · subst hf
      simp [frameMessages] at hm
      obtain ⟨m', _, rfl⟩ := hm
      rfl
  · intro h
    simp [send, h]
  · intro h
    simp [send, h]

/-- C7 (witness): an empty batch is still sent, as the empty array; a single
message goes out bare and stamped. -/
theorem send_stamps_version_and_wire_shape_witness :
    send (.inr []) = [.batch []]
  ∧ send (.inl { id := some (.jstr "x") }) =
      [.single { id := some (.jstr "x"), jsonrpc := some "2.0" }] :=
  ⟨(send_stamps_version_and_wire_shape (.inr [])).2.2 (by decide),
   (send_stamps_version_and_wire_shape (.inl { id := some (.jstr "x") })).2.1 (by decide)⟩

/-- C8: on input that is not decodable as JSON, `handleRequest` sends exactly
one untargeted Response `{id: null, error: {code: -32700, message: "Parse
error"}}` (stamped with the version tag, as a bare object) and nothing else. -/
theorem parse_error_single_untargeted_response (env : ServerEnv) (client : String)
    (hsock : env.socks client = true) :
    handleRequest env client none =
      .ok [.single
        { id := some .jnull,
          error := some { code := -32700, message := "Parse error" },
          jsonrpc := some "2.0" }] := by
  simp [handleRequest, hsock, parseRequest, send, makeArray, stampVersion]

/-- C8 (witness): the parse-error Response on a concrete connected server. -/
theorem parse_error_single_untargeted_response_witness :
    handleRequest sampleEnv "client" none =
      .ok [.single
        { id := some .jnull,
          error := some { code := -32700, message := "Parse error" },
          jsonrpc := some "2.0" }] :=
  parse_error_single_untargeted_response sampleEnv "client" rfl

/-- C9: a valid request naming a method (no trailing colon) with no registered
handler appends exactly the Response `{error: {code: -32601, message: "Method
not found"}, id}` to the accumulated batch when the request carried an id, and
appends nothing at all when it carried none. -/
theorem method_not_found_response (env : ServerEnv) (client : String) (acc : LoopAcc)
    (r : JsonRpcRequest) (i : JVal)
    (hcolon : endsWithColon r.method = false)
    (hmissing : env.methods r.method = none) :
    (r.id = some i →
      handleItem env client acc (.req r) =
        .ok { acc with
          responses := acc.responses ++
            [{ error := some { code := -32601, message := "Method not found" }, id := some i }] })
  ∧ (r.id = none → handleItem env client acc (.req r) = .ok acc) := by
  constructor
  · intro hid
    simp [handleItem, hcolon, hmissing, hid]
  · intro hid
    simp [handleItem, hcolon, hmissing, hid]

/-- C9 (witness): the unregistered method `nope` with id `"abc"` yields the
`-32601` Response carrying that id, and as a notification yields nothing. -/
theorem method_not_found_response_witness :
    (handleItem sampleEnv "client" { responses := [], sends := [] }
        (.req { method := "nope", id := some (.jstr "abc") }) =
      .ok { responses :=
              [{ error := some { code := -32601, message := "Method not found" },
                 id := some (.jstr "abc") }],
            sends := [] })
  ∧ (handleItem sampleEnv "client" { responses := [], sends := [] }
        (.req { method := "nope" }) = .ok { responses := [], sends := [] }) :=
  ⟨(method_not_found_response sampleEnv "client" { responses := [], sends := [] }
      { method := "nope", id := some (.jstr "abc") } (.jstr "abc") (by decide) rfl).1 rfl,
   (method_not_found_response sampleEnv "client" { responses := [], sends := [] }
      { method := "nope" } (.jstr "abc") (by decide) rfl).2 rfl⟩

/-- C10: constructing the client with `retryCount: 0` leaves retries unbounded:
the `options.retryCount || Infinity` coalescing treats the falsy `0` as unset,
so the retry-exhaustion branch is never taken, at any number of prior
retries. -/
theorem retry_count_zero_retries_unbounded (attempts : Nat) :
    effectiveRetryLimit (some 0) = none ∧
    retriesExhausted (some 0) attempts = false :=
  ⟨rfl, rfl⟩

end Jsonrpc
